import Mathlib

/-!
Verification of the data-ingestion component of the
`kubeflow_regression_decision_pipeline` repository
(`src/data_ingestion/data_ingestion.py`).

The script loads the fixed built-in breast-cancer dataset, splits it with
`sklearn.model_selection.train_test_split(X, y, test_size, random_state)`,
and serializes the four resulting arrays as one JSON object to a file.

The embedding below models:
  * the JSON values built at lines 16-21 and the token stream that
    `json.dump` writes at lines 24-25;
  * `train_test_split` semantics (sklearn `ShuffleSplit`): validation of
    `test_size`, `n_test = ceil(test_size * n)`, a seeded pseudo-random
    permutation of the row indices, test = first `n_test` permuted indices,
    train = the next `n_train` permuted indices;
  * a small file-system state (existing directories, file contents) so the
    `open(output_path, 'w')` / `json.dump` effects of `download_data` and
    the `mkdir(parents=True, exist_ok=True)` of `main` are explicit;
  * write-failure injection (`ioFuel`): the number of serializer chunks
    written before an I/O error, to reason about partial writes.

Python floats for `test_size` are modelled as rationals; machine reals do
not affect any claim checked here (the concrete fractions involved, 0.2,
0.25, 1.5, are exactly representable or the claim is about exact
arithmetic on the spec's side).
-/

/-- A JSON value as produced by `json.dump` on the Python dict of
line 16-21: `int` for Python ints (the `y` labels, numpy int arrays after
`.tolist()`), `num` for Python floats (the feature values), arrays and
objects. -/
inductive Json where
  | int (i : Int)
  | num (q : Rat)
  | arr (elems : List Json)
  | obj (fields : List (String × Json))

/-- One chunk of the serialized form of a JSON document, at the granularity
at which `json.dump` emits text to the file object. -/
inductive Tok where
  | lbrace
  | rbrace
  | lbrack
  | rbrack
  | comma
  | colon
  | key (s : String)
  | intLit (i : Int)
  | numLit (q : Rat)
deriving DecidableEq

mutual

/-- The chunk stream `json.dump` writes for a JSON value. -/
def Json.toks : Json → List Tok
  | .int i => [.intLit i]
  | .num q => [.numLit q]
  | .arr es => .lbrack :: (Json.toksElems es ++ [.rbrack])
  | .obj fs => .lbrace :: (Json.toksFields fs ++ [.rbrace])

/-- Chunk stream of the comma-separated elements of a JSON array. -/
def Json.toksElems : List Json → List Tok
  | [] => []
  | [e] => e.toks
  | e :: es => e.toks ++ .comma :: Json.toksElems es

/-- Chunk stream of the comma-separated `"key": value` fields of a JSON
object. -/
def Json.toksFields : List (String × Json) → List Tok
  | [] => []
  | [(k, v)] => .key k :: .colon :: v.toks
  | (k, v) :: fs => (.key k :: .colon :: v.toks) ++ .comma :: Json.toksFields fs

end

/-- Modelled from the spec: the pseudo-random generator driving the
permutation.  The source delegates to numpy (Mersenne Twister) through
`train_test_split`; the generator itself is library code not in the
repository, and the spec pins only that it is "a linear congruential or
Mersenne-Twister generator seeded with `random_state`".  We use a 64-bit
linear congruential step (Knuth's MMIX constants). -/
def lcgNext (s : Nat) : Nat :=
  (6364136223846793005 * s + 1442695040888963407) % (2 ^ 64)

/-- Modelled from the spec: the seeded shuffle.  Repeatedly draws the
element at position `state % length` and removes it — a selection-style
Fisher-Yates shuffle, matching the spec's "Fisher-Yates driven by a seeded
generator, or equivalent stratification-free split used by the reference
library". -/
def shuffleGo (fuel : Nat) (s : Nat) (l : List Nat) : List Nat :=
  match fuel, l with
  | 0, _ => []
  | _, [] => []
  | fuel + 1, x :: xs =>
    let j := s % (x :: xs).length
    (x :: xs).get ⟨j, Nat.mod_lt _ (by simp)⟩ ::
      shuffleGo fuel (lcgNext s) ((x :: xs).eraseIdx j)

/-- The shuffle itself: one draw per element. -/
def shuffle (s : Nat) (l : List Nat) : List Nat :=
  shuffleGo l.length s l

/-- `numpy` `check_random_state` as called with an integer seed: a fresh
generator state is derived from the seed alone, the ambient global
generator state is ignored. -/
def check_random_state (_ambient : Nat) (random_state : Nat) : Nat :=
  random_state

/-- Indexing a list of rows by a list of indices, as numpy fancy indexing
`X[indices]` does inside `train_test_split`. -/
def gather (l : List α) (idx : List Nat) : List α :=
  idx.filterMap (fun i => l[i]?)

/-- The errors of the operation, following the spec's taxonomy
(section 7).  `configurationError` is the sklearn `ValueError` raised by
`_validate_shuffle_split` for a `test_size` fraction outside (0,1);
`emptyTrain` is the sklearn `ValueError` "the resulting train set will be
empty"; `ioFailure` is an OS error while opening or writing the output
file. -/
inductive Err where
  | configurationError
  | emptyTrain
  | ioFailure
deriving DecidableEq

/-- The four arrays returned by `train_test_split` (source line 13). -/
structure SplitResult (α β : Type) where
  X_train : List α
  X_test : List α
  y_train : List β
  y_test : List β
deriving DecidableEq

/-- Number of test samples for a fractional `test_size`:
`ceil(test_size * n_samples)` (sklearn `_validate_shuffle_split`).  The
ceiling of `test_size * n = (num * n) / den` is computed with integer
(floor) division so that it evaluates by kernel reduction; the lemma
`nTest_eq_ceil` below identifies it with `⌈test_size * n⌉`. -/
def nTest (test_size : Rat) (n : Nat) : Nat :=
  ((test_size.num * n + test_size.den - 1) / (test_size.den : Int)).toNat

/-- The two index lists of the split, `(test, train)`: the first `n_test`
permuted indices and the following `n_train` ones
(sklearn `ShuffleSplit._iter_indices`). -/
def splitIndices (n : Nat) (test_size : Rat) (rng : Nat) : List Nat × List Nat :=
  let n_test := nTest test_size n
  let n_train := n - n_test
  let perm := shuffle rng (List.range n)
  (perm.take n_test, (perm.drop n_test).take n_train)

/-- `sklearn.model_selection.train_test_split(X, y, test_size=..,
random_state=..)` with a fractional `test_size`: validates
`0 < test_size < 1`, computes `n_test = ceil(test_size*n)`,
`n_train = n - n_test`, rejects an empty training set, then indexes `X`
and `y` by the permuted index lists.  The return order is
`X_train, X_test, y_train, y_test`. -/
def train_test_split (X : List α) (y : List β) (test_size : Rat)
    (rng : Nat) : Except Err (SplitResult α β) :=
  if test_size ≤ 0 ∨ 1 ≤ test_size then
    .error .configurationError
  else
    let n := X.length
    let n_train := n - nTest test_size n
    if n_train = 0 then
      .error .emptyTrain
    else
      let idx := splitIndices n test_size rng
      .ok { X_train := gather X idx.2
            X_test := gather X idx.1
            y_train := gather y idx.2
            y_test := gather y idx.1 }

/-- Modelled from the spec: `sklearn.datasets.load_breast_cancer
(return_X_y=True)`.  The dataset itself is library data absent from the
repository; the spec fixes its shape — N = 569 rows, a fixed number of
numeric feature columns (30), and a parallel vector of binary 0/1
labels — but not the feature values, which no claim depends on.
Placeholder feature values keep the rows pairwise distinct. -/
def load_breast_cancer : List (List Rat) × List Nat :=
  ((List.range 569).map (fun i => (List.range 30).map (fun j => ((i * 30 + j : Nat) : Rat))),
   (List.range 569).map (fun i => i % 2))

/-- Output paths are modelled as a parent directory plus a file name, which
is all `download_data` and `main` observe of them. -/
structure FsPath where
  parent : String
  name : String
deriving DecidableEq

/-- The file-system state the script touches: the set of existing
directories and the contents (serializer chunk streams) of existing
files. -/
structure FS where
  dirs : List String
  files : List (FsPath × List Tok)
deriving DecidableEq

/-- Content of the file at `p`, if it exists. -/
def FS.fileAt (fs : FS) (p : FsPath) : Option (List Tok) :=
  (fs.files.find? (fun e => e.1 = p)).map (·.2)

/-- Replace (or create) the file at `p` with content `c`. -/
def FS.setFile (fs : FS) (p : FsPath) (c : List Tok) : FS :=
  { fs with files := (p, c) :: fs.files.filter (fun e => ¬ e.1 = p) }

/-- The JSON document built at source lines 16-21: an object with exactly
the keys `X_train`, `y_train`, `X_test`, `y_test` in the dict's insertion
order; features serialize as JSON numbers (Python floats), labels as JSON
integers (Python ints). -/
def jsonOf (r : SplitResult (List Rat) Nat) : Json :=
  .obj [("X_train", .arr (r.X_train.map (fun row => .arr (row.map Json.num)))),
        ("y_train", .arr (r.y_train.map (fun l => .int (Int.ofNat l)))),
        ("X_test", .arr (r.X_test.map (fun row => .arr (row.map Json.num)))),
        ("y_test", .arr (r.y_test.map (fun l => .int (Int.ofNat l))))]

/-- The `with open(output_path, 'w') as f: json.dump(data, f)` of lines
24-25.  Opening requires the parent directory to exist and truncates the
file; `json.dump` then emits the chunk stream.  `ioFuel = some k` injects
an I/O failure after `k` chunks have been written (so `k = 0` leaves the
file empty); `ioFuel = none` means no failure occurs. -/
def writeJson (fs : FS) (ioFuel : Option Nat) (p : FsPath) (data : Json) :
    Except Err Unit × FS :=
  if p.parent ∈ fs.dirs then
    let full := data.toks
    match ioFuel with
    | none => (.ok (), fs.setFile p full)
    | some k =>
      if full.length ≤ k then (.ok (), fs.setFile p full)
      else (.error .ioFailure, fs.setFile p (full.take k))
  else
    (.error .ioFailure, fs)

/-- `download_data` (source lines 8-25) with the loaded dataset `(X, y)`
as an explicit argument: split via `train_test_split`, build the JSON
document, write it.  On success the split that was serialized is returned
as the observable result.  `ambient` is the ambient numpy global generator
state (unused, since an integer `random_state` is always passed). -/
def download_dataOn (X : List (List Rat)) (y : List Nat) (ambient : Nat)
    (fs : FS) (ioFuel : Option Nat) (output_path : FsPath)
    (test_size : Rat) (random_state : Nat) :
    Except Err (SplitResult (List Rat) Nat) × FS :=
  match train_test_split X y test_size (check_random_state ambient random_state) with
  | .error e => (.error e, fs)
  | .ok r =>
    match writeJson fs ioFuel output_path (jsonOf r) with
    | (.ok (), fs') => (.ok r, fs')
    | (.error e, fs') => (.error e, fs')

/-- `download_data(output_path, test_size=0.2, random_state=42)` (the
Python defaults are 0.2 and 42): loads the fixed dataset and runs the
split-and-serialize pipeline on it. -/
def download_data (ambient : Nat) (fs : FS) (ioFuel : Option Nat)
    (output_path : FsPath) (test_size : Rat) (random_state : Nat) :
    Except Err (SplitResult (List Rat) Nat) × FS :=
  download_dataOn load_breast_cancer.1 load_breast_cancer.2 ambient fs ioFuel
    output_path test_size random_state

/-- `Path(args.data).parent.mkdir(parents=True, exist_ok=True)` of source
line 37. -/
def mkdirParents (fs : FS) (d : String) : FS :=
  if d ∈ fs.dirs then fs else { fs with dirs := d :: fs.dirs }

/-- The parsed CLI arguments of `main` (source lines 28-34); argparse
defaults `--test-size` to 0.2 and `--random-state` to 42. -/
structure Args where
  data : FsPath
  test_size : Rat
  random_state : Nat

/-- `main` (source lines 27-41): creates the output file's parent
directory, then calls `download_data`. -/
def mainRun (ambient : Nat) (fs : FS) (ioFuel : Option Nat) (args : Args) :
    Except Err (SplitResult (List Rat) Nat) × FS :=
  download_data ambient (mkdirParents fs args.data.parent) ioFuel
    args.data args.test_size args.random_state

/-- Python's built-in `round` (round half to even), written from the
SPEC's formula `round(test_size * N)` — the spec-side counterpart, to be
compared with the code's `nTest`.  For `q = num/den` in lowest terms with
`den > 0`, `f = num / den` (floor division) is `⌊q⌋` and
`2*(num - f*den)` compares with `den` as the fractional part compares
with 1/2. -/
def pyRound (q : Rat) : Int :=
  let f := q.num / (q.den : Int)
  let twiceFrac := 2 * (q.num - f * q.den)
  if twiceFrac < (q.den : Int) then f
  else if (q.den : Int) < twiceFrac then f + 1
  else if f % 2 = 0 then f else f + 1

/-- The dataset split computed inside `download_data` (source line 13),
before serialization. -/
def download_split (test_size : Rat) (random_state : Nat) :
    Except Err (SplitResult (List Rat) Nat) :=
  train_test_split load_breast_cancer.1 load_breast_cancer.2 test_size random_state

/-- A JSON number (how a Python float serializes). -/
def isJsonNumber : Json → Bool
  | .num _ => true
  | _ => false

/-- An array of JSON numbers: one feature row. -/
def isRowOfNumbers : Json → Bool
  | .arr es => es.all isJsonNumber
  | _ => false

/-- An array of arrays of JSON numbers: a row-major feature matrix. -/
def isFeatureMatrix : Json → Bool
  | .arr rows => rows.all isRowOfNumbers
  | _ => false

/-- A flat array of the JSON integers 0 and 1: a label vector. -/
def isBinaryLabelArr : Json → Bool
  | .arr es =>
    es.all (fun j =>
      match j with
      | .int i => i == 0 || i == 1
      | _ => false)
  | _ => false

theorem cons_get_eraseIdx_perm :
    ∀ (l : List α) (i : Nat) (h : i < l.length),
      (l.get ⟨i, h⟩ :: l.eraseIdx i).Perm l
  | _ :: _, 0, _ => by simp
  | a :: l, i + 1, h => by
    have ih := cons_get_eraseIdx_perm l i (by simpa using h)
    simp only [List.get_eq_getElem, List.getElem_cons_succ, List.eraseIdx_cons_succ]
    exact (List.Perm.swap a _ _).trans (ih.cons a)

theorem shuffleGo_perm :
    ∀ (fuel s : Nat) (l : List Nat), l.length ≤ fuel →
      (shuffleGo fuel s l).Perm l
  | fuel, _, [], _ => by cases fuel <;> rfl
  | 0, _, _ :: _, h => by simp at h
  | fuel + 1, s, x :: xs, h => by
    have hj : s % (x :: xs).length < (x :: xs).length := Nat.mod_lt _ (by simp)
    have hlen : ((x :: xs).eraseIdx (s % (x :: xs).length)).length ≤ fuel := by
      rw [List.length_eraseIdx]
      simp only [if_pos hj]
      simp at h ⊢
      omega
    have ih := shuffleGo_perm fuel (lcgNext s) _ hlen
    exact (ih.cons _).trans (cons_get_eraseIdx_perm _ _ hj)

theorem shuffle_perm (s : Nat) (l : List Nat) : (shuffle s l).Perm l :=
  shuffleGo_perm l.length s l le_rfl

theorem shuffle_length (s : Nat) (l : List Nat) :
    (shuffle s l).length = l.length :=
  (shuffle_perm s l).length_eq

theorem shuffle_range_nodup (s n : Nat) :
    (shuffle s (List.range n)).Nodup :=
  ((shuffle_perm s (List.range n)).nodup_iff).mpr (List.nodup_range n)

theorem mem_shuffle_range_lt {s n i : Nat}
    (h : i ∈ shuffle s (List.range n)) : i < n :=
  List.mem_range.mp ((shuffle_perm s (List.range n)).mem_iff.mp h)

theorem gather_length {l : List α} {idx : List Nat}
    (h : ∀ i ∈ idx, i < l.length) :
    (gather l idx).length = idx.length := by
  induction idx with
  | nil => rfl
  | cons i idx ih =>
    have hi : i < l.length := h i (by simp)
    simp only [gather, List.filterMap_cons, List.getElem?_eq_getElem hi]
    simp only [gather] at ih
    simp [ih fun j hj => h j (by simp [hj])]

theorem gather_mem {l : List α} {idx : List Nat} {a : α}
    (h : a ∈ gather l idx) : a ∈ l := by
  simp only [gather, List.mem_filterMap] at h
  obtain ⟨i, _, hi⟩ := h
  exact List.getElem?_mem hi

theorem gather_range (l : List α) : gather l (List.range l.length) = l := by
  induction l with
  | nil => rfl
  | cons a l ih =>
    rw [List.length_cons, List.range_succ_eq_map, gather, List.filterMap_cons]
    simp only [List.getElem?_cons_zero, List.filterMap_map]
    have hc : ((fun i => (a :: l)[i]?) ∘ Nat.succ) = fun i => l[i]? := by
      funext i
      simp
    rw [hc]
    simp only [gather] at ih
    rw [ih]

theorem gather_append (l : List α) (i₁ i₂ : List Nat) :
    gather l (i₁ ++ i₂) = gather l i₁ ++ gather l i₂ :=
  List.filterMap_append i₁ i₂ _

theorem gather_perm {l : List α} {idx₁ idx₂ : List Nat}
    (h : idx₁.Perm idx₂) : (gather l idx₁).Perm (gather l idx₂) :=
  h.filterMap _

theorem gather_zip {X : List α} {y : List β} (hlen : y.length = X.length)
    {idx : List Nat} (h : ∀ i ∈ idx, i < X.length) :
    (gather X idx).zip (gather y idx) = gather (X.zip y) idx := by
  induction idx with
  | nil => rfl
  | cons i idx ih =>
    have hiX : i < X.length := h i (by simp)
    have hiy : i < y.length := by omega
    have hiXy : i < (X.zip y).length := by
      rw [List.length_zip]
      omega
    simp only [gather, List.filterMap_cons, List.getElem?_eq_getElem hiX,
      List.getElem?_eq_getElem hiy, List.getElem?_eq_getElem hiXy,
      List.zip_cons_cons, List.getElem_zip]
    simp only [gather] at ih
    rw [ih fun j hj => h j (by simp [hj])]

theorem ediv_neg_neg_eq (a : Int) (d : Int) (hd : 0 < d) :
    -(-a / d) = (a + d - 1) / d := by
  have hne : d ≠ 0 := by omega
  have hq := Int.ediv_add_emod a d
  have hr0 : 0 ≤ a % d := Int.emod_nonneg a hne
  have hrd : a % d < d := Int.emod_lt_of_pos a hd
  set q := a / d with hqdef
  set r := a % d with hrdef
  rcases eq_or_lt_of_le hr0 with hr | hr
  · have ha : a = d * q := by omega
    have h1 : -a / d = -q := by
      rw [ha, neg_mul_eq_mul_neg]
      exact Int.mul_ediv_cancel_left (-q) hne
    have h2 : (a + d - 1) / d = q := by
      have hdecomp : a + d - 1 = (d - 1) + d * q := by linear_combination ha
      rw [hdecomp, Int.add_mul_ediv_left _ _ hne,
        Int.ediv_eq_zero_of_lt (by omega) (by omega)]
      omega
    omega
  · have h1 : -a / d = -(q + 1) := by
      have hdecomp : -a = (d - r) + d * (-(q + 1)) := by linear_combination hq
      rw [hdecomp, Int.add_mul_ediv_left _ _ hne,
        Int.ediv_eq_zero_of_lt (by omega) (by omega)]
      omega
    have h2 : (a + d - 1) / d = q + 1 := by
      have hdecomp : a + d - 1 = (r - 1) + d * (q + 1) := by linear_combination - hq
      rw [hdecomp, Int.add_mul_ediv_left _ _ hne,
        Int.ediv_eq_zero_of_lt (by omega) (by omega)]
      omega
    omega

theorem ceil_intCast_div_natCast (a : Int) (d : Nat) (hd : 0 < d) :
    ⌈(a : Rat) / (d : Rat)⌉ = (a + d - 1) / (d : Int) := by
  have hcast : ((-a : Int) : Rat) / ((d : Nat) : Rat) = -((a : Rat) / (d : Rat)) := by
    push_cast
    ring
  have h0 : ⌈(a : Rat) / (d : Rat)⌉ = -⌊((-a : Int) : Rat) / ((d : Nat) : Rat)⌋ := by
    rw [hcast, Int.floor_neg, neg_neg]
  rw [h0, Rat.floor_intCast_div_natCast]
  exact ediv_neg_neg_eq a d (by exact_mod_cast hd)

theorem nTest_eq_ceil (t : Rat) (n : Nat) :
    nTest t n = (⌈t * (n : Rat)⌉).toNat := by
  have ht : t * (n : Rat) = ((t.num * n : Int) : Rat) / ((t.den : Nat) : Rat) := by
    conv_lhs => rw [← Rat.num_div_den t]
    push_cast
    ring
  rw [nTest, ht, ceil_intCast_div_natCast _ _ t.den_pos]

theorem nTest_le (t : Rat) (n : Nat) (h1 : t ≤ 1) : nTest t n ≤ n := by
  rw [nTest_eq_ceil]
  have hle : t * (n : Rat) ≤ (n : Rat) :=
    mul_le_of_le_one_left (by positivity) h1
  have : ⌈t * (n : Rat)⌉ ≤ (n : Int) := by
    rw [Int.ceil_le]
    exact_mod_cast hle
  omega

theorem load_breast_cancer_X_length : load_breast_cancer.1.length = 569 := by
  simp only [load_breast_cancer, List.length_map, List.length_range]

theorem load_breast_cancer_y_length : load_breast_cancer.2.length = 569 := by
  simp only [load_breast_cancer, List.length_map, List.length_range]

set_option maxRecDepth 4000 in
theorem load_breast_cancer_rows :
    ∀ row ∈ load_breast_cancer.1, row.length = 30 := by
  intro row hrow
  simp only [load_breast_cancer, List.mem_map] at hrow
  obtain ⟨i, _, rfl⟩ := hrow
  simp

set_option maxRecDepth 4000 in
theorem load_breast_cancer_labels :
    ∀ l ∈ load_breast_cancer.2, l = 0 ∨ l = 1 := by
  intro l hl
  simp only [load_breast_cancer, List.mem_map] at hl
  obtain ⟨i, _, rfl⟩ := hl
  omega

theorem train_test_split_ok {α β : Type} (X : List α) (y : List β)
    (t : Rat) (rng : Nat) (h0 : 0 < t) (h1 : t < 1)
    (hn : nTest t X.length < X.length) :
    train_test_split X y t rng =
      .ok { X_train := gather X (splitIndices X.length t rng).2
            X_test := gather X (splitIndices X.length t rng).1
            y_train := gather y (splitIndices X.length t rng).2
            y_test := gather y (splitIndices X.length t rng).1 } := by
  rw [train_test_split, if_neg (by push_neg; exact ⟨h0, h1⟩), if_neg (by omega)]

theorem splitIndices_fst (n : Nat) (t : Rat) (rng : Nat) :
    (splitIndices n t rng).1 = (shuffle rng (List.range n)).take (nTest t n) :=
  rfl

theorem splitIndices_snd (n : Nat) (t : Rat) (rng : Nat) :
    (splitIndices n t rng).2 = (shuffle rng (List.range n)).drop (nTest t n) := by
  rw [splitIndices]
  have hlen : ((shuffle rng (List.range n)).drop (nTest t n)).length ≤ n - nTest t n := by
    rw [List.length_drop, shuffle_length, List.length_range]
  exact List.take_of_length_le hlen

theorem splitIndices_append (n : Nat) (t : Rat) (rng : Nat) :
    (splitIndices n t rng).1 ++ (splitIndices n t rng).2
      = shuffle rng (List.range n) := by
  rw [splitIndices_fst, splitIndices_snd, List.take_append_drop]

theorem splitIndices_disjoint (n : Nat) (t : Rat) (rng : Nat) :
    (splitIndices n t rng).1.Disjoint (splitIndices n t rng).2 := by
  rw [splitIndices_fst, splitIndices_snd]
  exact List.disjoint_take_drop (shuffle_range_nodup rng n) le_rfl

theorem splitIndices_fst_lt (n : Nat) (t : Rat) (rng : Nat) :
    ∀ i ∈ (splitIndices n t rng).1, i < n := by
  intro i hi
  rw [splitIndices_fst] at hi
  exact mem_shuffle_range_lt (List.take_subset _ _ hi)

theorem splitIndices_snd_lt (n : Nat) (t : Rat) (rng : Nat) :
    ∀ i ∈ (splitIndices n t rng).2, i < n := by
  intro i hi
  have : i ∈ (shuffle rng (List.range n)).drop (nTest t n) :=
    List.take_subset _ _ hi
  exact mem_shuffle_range_lt (List.drop_subset _ _ this)

theorem splitIndices_fst_length (n : Nat) (t : Rat) (rng : Nat)
    (hle : nTest t n ≤ n) :
    (splitIndices n t rng).1.length = nTest t n := by
  rw [splitIndices_fst, List.length_take, shuffle_length, List.length_range]
  omega

theorem splitIndices_snd_length (n : Nat) (t : Rat) (rng : Nat) :
    (splitIndices n t rng).2.length = n - nTest t n := by
  rw [splitIndices_snd, List.length_drop, shuffle_length, List.length_range]

theorem download_split_emptyTrain (t : Rat) (s : Nat)
    (h0 : ¬ (t ≤ 0 ∨ 1 ≤ t)) (hn : nTest t 569 = 569) :
    download_split t s = .error .emptyTrain := by
  rw [download_split, train_test_split, if_neg h0]
  simp [load_breast_cancer_X_length, hn]

/-- Claim C1, as stated: for every `test_size` in (0,1) and every
`random_state`, `download_data` produces a split with
`len(X_train) + len(X_test) = N`, matching label lengths, and disjoint
index sets covering the full range.  COUNTEREXAMPLE: at
`test_size = 999/1000` (inside (0,1)) no split is produced at all —
sklearn's `_validate_shuffle_split` raises "the resulting train set will
be empty" because `ceil(0.999 * 569) = 569` leaves `n_train = 0`. -/
theorem c1_claim_counterexample :
    (0 < mkRat 999 1000 ∧ mkRat 999 1000 < 1) ∧
    ∀ r, download_split (mkRat 999 1000) 42 ≠ .ok r := by
  refine ⟨⟨by decide, by decide⟩, ?_⟩
  intro r hr
  rw [download_split_emptyTrain (mkRat 999 1000) 42 (by decide) (by decide)] at hr
  exact Except.noConfusion hr

/-- Claim C1 (amended): for every `test_size` in (0,1) for which the
training set is nonempty (`ceil(test_size * N) < N`; otherwise the
operation fails) and every `random_state`, the split produced by
`download_data` satisfies `len(X_train) + len(X_test) = N` (N the full
dataset size), `len(y_train) = len(X_train)`, `len(y_test) = len(X_test)`,
and the test and train index sets are disjoint with union (as a
permutation) equal to the full index range `0 .. N-1`. -/
theorem c1_amended (t : Rat) (s : Nat) (h0 : 0 < t) (h1 : t < 1)
    (hn : nTest t 569 < 569) :
    ∃ r, download_split t s = .ok r ∧
      r.X_train.length + r.X_test.length = load_breast_cancer.1.length ∧
      r.y_train.length = r.X_train.length ∧
      r.y_test.length = r.X_test.length ∧
      (splitIndices 569 t s).1.Disjoint (splitIndices 569 t s).2 ∧
      ((splitIndices 569 t s).1 ++ (splitIndices 569 t s).2).Perm
        (List.range 569) := by
  have hX := load_breast_cancer_X_length
  have hy := load_breast_cancer_y_length
  have hok := train_test_split_ok load_breast_cancer.1 load_breast_cancer.2
    t s h0 h1 (by rw [hX]; exact hn)
  rw [hX] at hok
  refine ⟨_, hok, ?_, ?_, ?_, splitIndices_disjoint 569 t s, ?_⟩
  · rw [gather_length (fun i hi => by rw [hX]; exact splitIndices_snd_lt 569 t s i hi),
      gather_length (fun i hi => by rw [hX]; exact splitIndices_fst_lt 569 t s i hi),
      splitIndices_fst_length 569 t s (by omega),
      splitIndices_snd_length 569 t s, hX]
    omega
  · rw [gather_length (fun i hi => by rw [hy]; exact splitIndices_snd_lt 569 t s i hi),
      gather_length (fun i hi => by rw [hX]; exact splitIndices_snd_lt 569 t s i hi)]
  · rw [gather_length (fun i hi => by rw [hy]; exact splitIndices_fst_lt 569 t s i hi),
      gather_length (fun i hi => by rw [hX]; exact splitIndices_fst_lt 569 t s i hi)]
  · rw [splitIndices_append 569 t s]
    exact shuffle_perm s (List.range 569)

theorem c1_amended_witness :
    (0 < mkRat 1 5 ∧ mkRat 1 5 < 1 ∧ nTest (mkRat 1 5) 569 < 569) ∧
    ∃ r, download_split (mkRat 1 5) 42 = .ok r ∧
      r.X_train.length + r.X_test.length = load_breast_cancer.1.length ∧
      r.y_train.length = r.X_train.length ∧
      r.y_test.length = r.X_test.length ∧
      (splitIndices 569 (mkRat 1 5) 42).1.Disjoint
        (splitIndices 569 (mkRat 1 5) 42).2 ∧
      ((splitIndices 569 (mkRat 1 5) 42).1
          ++ (splitIndices 569 (mkRat 1 5) 42).2).Perm (List.range 569) :=
  ⟨⟨by decide, by decide, by decide⟩,
   c1_amended (mkRat 1 5) 42 (by decide) (by decide) (by decide)⟩

theorem mkRat_quarter_mul : mkRat 1 4 * ((569 : Nat) : Rat) = mkRat 569 4 := by
  rw [Rat.mkRat_eq_divInt, Rat.mkRat_eq_divInt, Rat.divInt_eq_div, Rat.divInt_eq_div]
  push_cast
  ring

set_option maxRecDepth 8000

/-- Claim C2, as stated: the test set is the first `round(test_size * N)`
permuted indices.  COUNTEREXAMPLE: the code (sklearn) takes
`ceil(test_size * N)` indices, and at `test_size = 0.25`, N = 569, the
test set has `ceil(142.25) = 143` rows while `round(0.25 * 569) = 142`
(so the test set is not the first `round(test_size*N)` permuted
indices).  At `test_size = 0.2` the two formulas coincide (114), so the
claim's concrete scenario holds and is kept in the amended claim. -/
theorem c2_claim_counterexample :
    (0 < mkRat 1 4 ∧ mkRat 1 4 < 1) ∧
    (pyRound (mkRat 1 4 * ((569 : Nat) : Rat))).toNat = 142 ∧
    ∃ r, download_split (mkRat 1 4) 42 = .ok r ∧
      r.X_test.length = 143 ∧
      r.X_test ≠ gather load_breast_cancer.1
        ((shuffle 42 (List.range 569)).take
          ((pyRound (mkRat 1 4 * ((569 : Nat) : Rat))).toNat)) := by
  have hround : (pyRound (mkRat 1 4 * ((569 : Nat) : Rat))).toNat = 142 := by
    rw [mkRat_quarter_mul]
    decide
  have hX := load_breast_cancer_X_length
  have hok := train_test_split_ok load_breast_cancer.1 load_breast_cancer.2
    (mkRat 1 4) 42 (by decide) (by decide) (by rw [hX]; decide)
  rw [hX] at hok
  have hlen : (gather load_breast_cancer.1
      ((splitIndices 569 (mkRat 1 4) 42).1)).length = 143 := by
    rw [gather_length (fun i hi => by
        rw [hX]; exact splitIndices_fst_lt 569 (mkRat 1 4) 42 i hi),
      splitIndices_fst_length 569 (mkRat 1 4) 42 (by decide)]
    decide
  refine ⟨⟨by decide, by decide⟩, hround, _, hok, hlen, ?_⟩
  intro hEq
  have hlen' : (gather load_breast_cancer.1
      ((shuffle 42 (List.range 569)).take
        ((pyRound (mkRat 1 4 * ((569 : Nat) : Rat))).toNat))).length = 142 := by
    rw [hround, gather_length (fun i hi => by
        rw [hX]
        exact mem_shuffle_range_lt (List.take_subset _ _ hi)),
      List.length_take, shuffle_length, List.length_range]
    decide
  have h143 : (gather load_breast_cancer.1
      ((shuffle 42 (List.range 569)).take
        ((pyRound (mkRat 1 4 * ((569 : Nat) : Rat))).toNat))).length = 143 := by
    rw [← hEq]
    exact hlen
  rw [hlen'] at h143
  exact absurd h143 (by decide)

/-- Claim C2 (amended): for every `test_size` in (0,1) with a nonempty
resulting training set, the test set consists of the first
`ceil(test_size * N)` permuted indices (not `round`) and the training set
of the remainder; in particular, with `test_size = 0.2`,
`random_state = 42` and N = 569, `len(X_test) = ceil(113.8) = 114` and
`len(X_train) = 455`. -/
theorem c2_amended :
    (∀ (t : Rat) (s : Nat), 0 < t → t < 1 → nTest t 569 < 569 →
      ∃ r, download_split t s = .ok r ∧
        r.X_test = gather load_breast_cancer.1
          ((shuffle s (List.range 569)).take (nTest t 569)) ∧
        r.X_train = gather load_breast_cancer.1
          ((shuffle s (List.range 569)).drop (nTest t 569)) ∧
        r.X_test.length = nTest t 569 ∧
        r.X_train.length = 569 - nTest t 569) ∧
    (∃ r, download_split (mkRat 1 5) 42 = .ok r ∧
      r.X_test.length = 114 ∧ r.X_train.length = 455) := by
  have hX := load_breast_cancer_X_length
  have main : ∀ (t : Rat) (s : Nat), 0 < t → t < 1 → nTest t 569 < 569 →
      ∃ r, download_split t s = .ok r ∧
        r.X_test = gather load_breast_cancer.1
          ((shuffle s (List.range 569)).take (nTest t 569)) ∧
        r.X_train = gather load_breast_cancer.1
          ((shuffle s (List.range 569)).drop (nTest t 569)) ∧
        r.X_test.length = nTest t 569 ∧
        r.X_train.length = 569 - nTest t 569 := by
    intro t s h0 h1 hn
    have hok := train_test_split_ok load_breast_cancer.1 load_breast_cancer.2
      t s h0 h1 (by rw [hX]; exact hn)
    rw [hX] at hok
    refine ⟨_, hok, ?_, ?_, ?_, ?_⟩
    · rw [splitIndices_fst]
    · rw [splitIndices_snd]
    · rw [gather_length (fun i hi => by
          rw [hX]; exact splitIndices_fst_lt 569 t s i hi),
        splitIndices_fst_length 569 t s (by omega)]
    · rw [gather_length (fun i hi => by
          rw [hX]; exact splitIndices_snd_lt 569 t s i hi),
        splitIndices_snd_length 569 t s]
  refine ⟨main, ?_⟩
  obtain ⟨r, hok, _, _, hlen, hlen'⟩ :=
    main (mkRat 1 5) 42 (by decide) (by decide) (by decide)
  exact ⟨r, hok, by rw [hlen]; decide, by rw [hlen']; decide⟩

theorem c2_amended_witness :
    (0 < mkRat 1 5 ∧ mkRat 1 5 < 1 ∧ nTest (mkRat 1 5) 569 < 569) ∧
    ((∃ r, download_split (mkRat 1 5) 42 = .ok r ∧
        r.X_test = gather load_breast_cancer.1
          ((shuffle 42 (List.range 569)).take (nTest (mkRat 1 5) 569)) ∧
        r.X_train = gather load_breast_cancer.1
          ((shuffle 42 (List.range 569)).drop (nTest (mkRat 1 5) 569)) ∧
        r.X_test.length = nTest (mkRat 1 5) 569 ∧
        r.X_train.length = 569 - nTest (mkRat 1 5) 569) ∧
      (∃ r, download_split (mkRat 1 5) 42 = .ok r ∧
        r.X_test.length = 114 ∧ r.X_train.length = 455)) :=
  ⟨⟨by decide, by decide, by decide⟩,
   c2_amended.1 (mkRat 1 5) 42 (by decide) (by decide) (by decide),
   c2_amended.2⟩

/-- Claim C3: `download_data` is deterministic in its parameters — for a
fixed `random_state` and `test_size` (and the same file-system state and
injected I/O behaviour), two runs under arbitrary, possibly different
ambient numpy generator states produce identical results: identical split
content and identical written file.  This holds because
`train_test_split` derives its generator from the integer `random_state`
alone (`check_random_state`), never from ambient state. -/
theorem c3_deterministic (a₁ a₂ : Nat) (fs : FS) (ioFuel : Option Nat)
    (p : FsPath) (t : Rat) (s : Nat) :
    download_data a₁ fs ioFuel p t s = download_data a₂ fs ioFuel p t s :=
  rfl

/-- Claim C4: the multiset union of the rows of `X_train` and `X_test`,
each paired with its label, is a permutation of (equals as a multiset)
the full dataset's rows paired with their labels: every original row
appears exactly once across the two subsets. -/
theorem c4_multiset_union (t : Rat) (s : Nat) (h0 : 0 < t) (h1 : t < 1)
    (hn : nTest t 569 < 569) :
    ∃ r, download_split t s = .ok r ∧
      ((r.X_train.zip r.y_train) ++ (r.X_test.zip r.y_test)).Perm
        (load_breast_cancer.1.zip load_breast_cancer.2) := by
  have hX := load_breast_cancer_X_length
  have hy := load_breast_cancer_y_length
  have hlen : load_breast_cancer.2.length = load_breast_cancer.1.length := by
    rw [hX, hy]
  have hok := train_test_split_ok load_breast_cancer.1 load_breast_cancer.2
    t s h0 h1 (by rw [hX]; exact hn)
  rw [hX] at hok
  refine ⟨_, hok, ?_⟩
  have hbound2 : ∀ i ∈ (splitIndices 569 t s).2, i < load_breast_cancer.1.length :=
    fun i hi => by rw [hX]; exact splitIndices_snd_lt 569 t s i hi
  have hbound1 : ∀ i ∈ (splitIndices 569 t s).1, i < load_breast_cancer.1.length :=
    fun i hi => by rw [hX]; exact splitIndices_fst_lt 569 t s i hi
  rw [gather_zip hlen hbound2, gather_zip hlen hbound1, ← gather_append]
  have hperm : ((splitIndices 569 t s).2 ++ (splitIndices 569 t s).1).Perm
      (List.range 569) := by
    refine (List.perm_append_comm).trans ?_
    rw [splitIndices_append 569 t s]
    exact shuffle_perm s (List.range 569)
  refine (gather_perm hperm).trans ?_
  have hzlen : (load_breast_cancer.1.zip load_breast_cancer.2).length = 569 := by
    rw [List.length_zip, hX, hy]
    omega
  rw [← hzlen, gather_range]

theorem c4_multiset_union_witness :
    (0 < mkRat 1 5 ∧ mkRat 1 5 < 1 ∧ nTest (mkRat 1 5) 569 < 569) ∧
    ∃ r, download_split (mkRat 1 5) 42 = .ok r ∧
      ((r.X_train.zip r.y_train) ++ (r.X_test.zip r.y_test)).Perm
        (load_breast_cancer.1.zip load_breast_cancer.2) :=
  ⟨⟨by decide, by decide, by decide⟩,
   c4_multiset_union (mkRat 1 5) 42 (by decide) (by decide) (by decide)⟩

/-- Claim C5: every label value appearing in `y_train` and in `y_test` is
either 0 or 1 (the dataset's label vector is binary, and the split only
rearranges it). -/
theorem c5_binary_labels (t : Rat) (s : Nat) (h0 : 0 < t) (h1 : t < 1)
    (hn : nTest t 569 < 569) :
    ∃ r, download_split t s = .ok r ∧
      (∀ l ∈ r.y_train, l = 0 ∨ l = 1) ∧
      (∀ l ∈ r.y_test, l = 0 ∨ l = 1) := by
  have hX := load_breast_cancer_X_length
  have hok := train_test_split_ok load_breast_cancer.1 load_breast_cancer.2
    t s h0 h1 (by rw [hX]; exact hn)
  rw [hX] at hok
  exact ⟨_, hok,
    fun l hl => load_breast_cancer_labels l (gather_mem hl),
    fun l hl => load_breast_cancer_labels l (gather_mem hl)⟩

theorem c5_binary_labels_witness :
    (0 < mkRat 1 5 ∧ mkRat 1 5 < 1 ∧ nTest (mkRat 1 5) 569 < 569) ∧
    ∃ r, download_split (mkRat 1 5) 42 = .ok r ∧
      (∀ l ∈ r.y_train, l = 0 ∨ l = 1) ∧
      (∀ l ∈ r.y_test, l = 0 ∨ l = 1) :=
  ⟨⟨by decide, by decide, by decide⟩,
   c5_binary_labels (mkRat 1 5) 42 (by decide) (by decide) (by decide)⟩

/-- Claim C9: every feature row in `X_train` and `X_test` has exactly 30
numeric entries, the fixed column count of the dataset (the split only
selects whole rows). -/
theorem c9_row_width (t : Rat) (s : Nat) (h0 : 0 < t) (h1 : t < 1)
    (hn : nTest t 569 < 569) :
    ∃ r, download_split t s = .ok r ∧
      (∀ row ∈ r.X_train, row.length = 30) ∧
      (∀ row ∈ r.X_test, row.length = 30) := by
  have hX := load_breast_cancer_X_length
  have hok := train_test_split_ok load_breast_cancer.1 load_breast_cancer.2
    t s h0 h1 (by rw [hX]; exact hn)
  rw [hX] at hok
  exact ⟨_, hok,
    fun row hrow => load_breast_cancer_rows row (gather_mem hrow),
    fun row hrow => load_breast_cancer_rows row (gather_mem hrow)⟩

theorem c9_row_width_witness :
    (0 < mkRat 1 5 ∧ mkRat 1 5 < 1 ∧ nTest (mkRat 1 5) 569 < 569) ∧
    ∃ r, download_split (mkRat 1 5) 42 = .ok r ∧
      (∀ row ∈ r.X_train, row.length = 30) ∧
      (∀ row ∈ r.X_test, row.length = 30) :=
  ⟨⟨by decide, by decide, by decide⟩,
   c9_row_width (mkRat 1 5) 42 (by decide) (by decide) (by decide)⟩

theorem FS.fileAt_setFile (fs : FS) (p : FsPath) (c : List Tok) :
    (fs.setFile p c).fileAt p = some c := by
  simp [FS.fileAt, FS.setFile]

theorem Json.toks_ne_nil : ∀ j : Json, j.toks ≠ [] := by
  intro j
  cases j <;> simp [Json.toks]

/-- Claim C6: for `test_size` outside (0,1) (e.g. `test_size = 1.5`), the
operation fails with the configuration error (sklearn's `ValueError` for
an invalid split fraction, the spec's `ConfigurationError`), raised inside
`train_test_split` at source line 13 — before the `open` at line 24, so
the file system is returned completely unchanged: no file is created or
modified. -/
theorem c6_invalid_test_size (a : Nat) (fs : FS) (ioFuel : Option Nat)
    (p : FsPath) (t : Rat) (s : Nat) (h : t ≤ 0 ∨ 1 ≤ t) :
    download_data a fs ioFuel p t s = (.error .configurationError, fs) := by
  have htts : train_test_split load_breast_cancer.1 load_breast_cancer.2 t
      (check_random_state a s) = .error .configurationError := by
    rw [train_test_split, if_pos h]
  rw [download_data, download_dataOn, htts]

theorem c6_invalid_test_size_witness :
    (mkRat 3 2 ≤ 0 ∨ (1 : Rat) ≤ mkRat 3 2) ∧
    download_data 0 ⟨["out"], []⟩ none ⟨"out", "data.json"⟩ (mkRat 3 2) 42
      = (.error .configurationError, ⟨["out"], []⟩) :=
  ⟨by decide,
   c6_invalid_test_size 0 ⟨["out"], []⟩ none ⟨"out", "data.json"⟩
     (mkRat 3 2) 42 (by decide)⟩

theorem isFeatureMatrix_of_rows (rows : List (List Rat)) :
    isFeatureMatrix (.arr (rows.map (fun row => .arr (row.map Json.num)))) = true := by
  simp only [isFeatureMatrix, List.all_eq_true]
  intro j hj
  rw [List.mem_map] at hj
  obtain ⟨row, _, rfl⟩ := hj
  simp only [isRowOfNumbers, List.all_eq_true]
  intro k hk
  rw [List.mem_map] at hk
  obtain ⟨q, _, rfl⟩ := hk
  rfl

theorem isBinaryLabelArr_of_labels (ls : List Nat)
    (h : ∀ l ∈ ls, l = 0 ∨ l = 1) :
    isBinaryLabelArr (.arr (ls.map (fun l => Json.int (Int.ofNat l)))) = true := by
  induction ls with
  | nil => rfl
  | cons m ms ih =>
    have hm := h m (List.mem_cons_self m ms)
    have hms := ih (fun l hl => h l (List.mem_cons_of_mem m hl))
    simp only [isBinaryLabelArr, List.map_cons, List.all_cons, Bool.and_eq_true]
    refine ⟨?_, ?_⟩
    · rcases hm with h' | h' <;> subst h' <;> rfl
    · simp only [isBinaryLabelArr] at hms
      exact hms

/-- Claim C7: on a successful run the written output is a single JSON
object with exactly the four keys `X_train`, `y_train`, `X_test`,
`y_test` (in the dict's insertion order), where the `X` entries are
arrays of arrays of JSON numbers (one sub-array per sample, row-major)
and the `y` entries are flat arrays of the JSON integers 0/1; all four
arrays are present by construction, even when empty. -/
theorem c7_output_format (a : Nat) (fs : FS) (p : FsPath) (t : Rat) (s : Nat)
    (h0 : 0 < t) (h1 : t < 1) (hn : nTest t 569 < 569)
    (hdir : p.parent ∈ fs.dirs) :
    ∃ r, download_data a fs none p t s
        = (.ok r, fs.setFile p (jsonOf r).toks) ∧
      (fs.setFile p (jsonOf r).toks).fileAt p = some (jsonOf r).toks ∧
      ∃ xt yt xe ye,
        jsonOf r = Json.obj [("X_train", xt), ("y_train", yt),
          ("X_test", xe), ("y_test", ye)] ∧
        isFeatureMatrix xt = true ∧ isBinaryLabelArr yt = true ∧
        isFeatureMatrix xe = true ∧ isBinaryLabelArr ye = true := by
  have hX := load_breast_cancer_X_length
  have hok := train_test_split_ok load_breast_cancer.1 load_breast_cancer.2
    t s h0 h1 (by rw [hX]; exact hn)
  rw [hX] at hok
  have hok' : train_test_split load_breast_cancer.1 load_breast_cancer.2 t
      (check_random_state a s) = .ok
        { X_train := gather load_breast_cancer.1 (splitIndices 569 t s).2
          X_test := gather load_breast_cancer.1 (splitIndices 569 t s).1
          y_train := gather load_breast_cancer.2 (splitIndices 569 t s).2
          y_test := gather load_breast_cancer.2 (splitIndices 569 t s).1 } := hok
  refine ⟨{ X_train := gather load_breast_cancer.1 (splitIndices 569 t s).2
            X_test := gather load_breast_cancer.1 (splitIndices 569 t s).1
            y_train := gather load_breast_cancer.2 (splitIndices 569 t s).2
            y_test := gather load_breast_cancer.2 (splitIndices 569 t s).1 },
      ?_, ?_, ?_⟩
  · rw [download_data, download_dataOn, hok']
    simp only [writeJson, if_pos hdir]
  · exact FS.fileAt_setFile fs p _
  · refine ⟨_, _, _, _, rfl, isFeatureMatrix_of_rows _,
      isBinaryLabelArr_of_labels _ ?_, isFeatureMatrix_of_rows _,
      isBinaryLabelArr_of_labels _ ?_⟩
    · intro l hl
      exact load_breast_cancer_labels l (gather_mem hl)
    · intro l hl
      exact load_breast_cancer_labels l (gather_mem hl)

theorem c7_output_format_witness :
    (0 < mkRat 1 5 ∧ mkRat 1 5 < 1 ∧ nTest (mkRat 1 5) 569 < 569 ∧
      (⟨"out", "data.json"⟩ : FsPath).parent ∈ (⟨["out"], []⟩ : FS).dirs) ∧
    ∃ r, download_data 7 ⟨["out"], []⟩ none ⟨"out", "data.json"⟩
        (mkRat 1 5) 42
        = (.ok r, (⟨["out"], []⟩ : FS).setFile ⟨"out", "data.json"⟩ (jsonOf r).toks) ∧
      ((⟨["out"], []⟩ : FS).setFile ⟨"out", "data.json"⟩ (jsonOf r).toks).fileAt
          ⟨"out", "data.json"⟩ = some (jsonOf r).toks ∧
      ∃ xt yt xe ye,
        jsonOf r = Json.obj [("X_train", xt), ("y_train", yt),
          ("X_test", xe), ("y_test", ye)] ∧
        isFeatureMatrix xt = true ∧ isBinaryLabelArr yt = true ∧
        isFeatureMatrix xe = true ∧ isBinaryLabelArr ye = true :=
  ⟨⟨by decide, by decide, by decide, by decide⟩,
   c7_output_format 7 ⟨["out"], []⟩ ⟨"out", "data.json"⟩ (mkRat 1 5) 42
     (by decide) (by decide) (by decide) (by decide)⟩

theorem writeJson_cases (fs : FS) (ioFuel : Option Nat) (p : FsPath)
    (data : Json) :
    writeJson fs ioFuel p data = (.ok (), fs.setFile p data.toks) ∨
    (writeJson fs ioFuel p data = (.error .ioFailure, fs) ∧
      p.parent ∉ fs.dirs) ∨
    ∃ k, ioFuel = some k ∧ k < data.toks.length ∧
      writeJson fs ioFuel p data
        = (.error .ioFailure, fs.setFile p (data.toks.take k)) := by
  by_cases hdir : p.parent ∈ fs.dirs
  · cases ioFuel with
    | none =>
      left
      simp only [writeJson, if_pos hdir]
    | some k =>
      by_cases hk : data.toks.length ≤ k
      · left
        simp only [writeJson, if_pos hdir, if_pos hk]
      · right
        right
        refine ⟨k, rfl, by omega, ?_⟩
        simp only [writeJson, if_pos hdir, if_neg hk]
  · right
    left
    refine ⟨?_, hdir⟩
    simp only [writeJson, if_neg hdir]

/-- Claim C8, as stated: on any error, either the write completes with
valid JSON or the previously existing file state is not replaced by
invalid JSON.  COUNTEREXAMPLE: the code opens the file with mode `'w'`
(truncating it immediately) and streams `json.dump` into it with no
temporary file or rename; a run over a two-row dataset whose write fails
after 0 chunks ends in an I/O error with the previously existing valid
JSON file (`7`) replaced by an empty file — and the empty chunk stream is
not the serialization of any JSON document. -/
theorem c8_claim_counterexample :
    download_dataOn [[mkRat 1 1], [mkRat 2 1]] [0, 1] 0
        (⟨["d"], [(⟨"d", "f"⟩, (Json.int 7).toks)]⟩ : FS) (some 0)
        ⟨"d", "f"⟩ (mkRat 1 2) 0
      = (.error .ioFailure,
         (⟨["d"], [(⟨"d", "f"⟩, (Json.int 7).toks)]⟩ : FS).setFile ⟨"d", "f"⟩ []) ∧
    (⟨["d"], [(⟨"d", "f"⟩, (Json.int 7).toks)]⟩ : FS).fileAt ⟨"d", "f"⟩
      = some (Json.int 7).toks ∧
    ((⟨["d"], [(⟨"d", "f"⟩, (Json.int 7).toks)]⟩ : FS).setFile
        ⟨"d", "f"⟩ []).fileAt ⟨"d", "f"⟩ = some [] ∧
    ∀ j : Json, j.toks ≠ [] := by
  refine ⟨by rfl, by rfl, by rfl, Json.toks_ne_nil⟩

/-- Claim C8 (amended): a `test_size` validation failure happens before
the file is opened and leaves the file system unchanged; but once the
write has begun, an I/O failure leaves a strict prefix (possibly empty)
of the serialized JSON document in the file — the plain
`open(..., 'w')` + `json.dump` write is not atomic, and the prior file
content is already lost at that point. -/
theorem c8_amended (X : List (List Rat)) (y : List Nat) (a : Nat) (fs : FS)
    (ioFuel : Option Nat) (p : FsPath) (t : Rat) (s : Nat) (e : Err)
    (h : (download_dataOn X y a fs ioFuel p t s).1 = .error e) :
    (download_dataOn X y a fs ioFuel p t s).2 = fs ∨
    ∃ r k, train_test_split X y t (check_random_state a s) = .ok r ∧
      ioFuel = some k ∧ k < (jsonOf r).toks.length ∧
      (download_dataOn X y a fs ioFuel p t s).2
        = fs.setFile p ((jsonOf r).toks.take k) := by
  cases htts : train_test_split X y t (check_random_state a s) with
  | error e' =>
    left
    rw [download_dataOn, htts]
  | ok r =>
    rcases writeJson_cases fs ioFuel p (jsonOf r) with hw | ⟨hw, _⟩ | ⟨k, hk, hklt, hw⟩
    · have hD : download_dataOn X y a fs ioFuel p t s
          = (.ok r, fs.setFile p (jsonOf r).toks) := by
        simp only [download_dataOn, htts, hw]
      rw [hD] at h
      exact absurd h (by simp)
    · have hD : download_dataOn X y a fs ioFuel p t s
          = (.error .ioFailure, fs) := by
        simp only [download_dataOn, htts, hw]
      left
      rw [hD]
    · have hD : download_dataOn X y a fs ioFuel p t s
          = (.error .ioFailure, fs.setFile p ((jsonOf r).toks.take k)) := by
        simp only [download_dataOn, htts, hw]
      right
      refine ⟨r, k, rfl, hk, hklt, ?_⟩
      rw [hD]

theorem c8_amended_witness :
    ((download_dataOn [[mkRat 1 1], [mkRat 2 1]] [0, 1] 0
        (⟨["w"], []⟩ : FS) (some 0) ⟨"w", "g"⟩ (mkRat 1 2) 3).1
      = .error .ioFailure) ∧
    ((download_dataOn [[mkRat 1 1], [mkRat 2 1]] [0, 1] 0
        (⟨["w"], []⟩ : FS) (some 0) ⟨"w", "g"⟩ (mkRat 1 2) 3).2
        = (⟨["w"], []⟩ : FS) ∨
      ∃ r k, train_test_split [[mkRat 1 1], [mkRat 2 1]] [0, 1] (mkRat 1 2)
          (check_random_state 0 3) = .ok r ∧
        (some 0 : Option Nat) = some k ∧ k < (jsonOf r).toks.length ∧
        (download_dataOn [[mkRat 1 1], [mkRat 2 1]] [0, 1] 0
            (⟨["w"], []⟩ : FS) (some 0) ⟨"w", "g"⟩ (mkRat 1 2) 3).2
          = (⟨["w"], []⟩ : FS).setFile ⟨"w", "g"⟩ ((jsonOf r).toks.take k)) :=
  ⟨by rfl,
   c8_amended [[mkRat 1 1], [mkRat 2 1]] [0, 1] 0 ⟨["w"], []⟩ (some 0)
     ⟨"w", "g"⟩ (mkRat 1 2) 3 .ioFailure (by rfl)⟩

theorem download_dataOn_dirs (X : List (List Rat)) (y : List Nat) (a : Nat)
    (fs : FS) (ioFuel : Option Nat) (p : FsPath) (t : Rat) (s : Nat) :
    (download_dataOn X y a fs ioFuel p t s).2.dirs = fs.dirs := by
  cases htts : train_test_split X y t (check_random_state a s) with
  | error e =>
    rw [download_dataOn, htts]
  | ok r =>
    rcases writeJson_cases fs ioFuel p (jsonOf r) with hw | ⟨hw, _⟩ | ⟨k, _, _, hw⟩
    · have hD : download_dataOn X y a fs ioFuel p t s
          = (.ok r, fs.setFile p (jsonOf r).toks) := by
        simp only [download_dataOn, htts, hw]
      rw [hD]
      rfl
    · have hD : download_dataOn X y a fs ioFuel p t s
          = (.error .ioFailure, fs) := by
        simp only [download_dataOn, htts, hw]
      rw [hD]
    · have hD : download_dataOn X y a fs ioFuel p t s
          = (.error .ioFailure, fs.setFile p ((jsonOf r).toks.take k)) := by
        simp only [download_dataOn, htts, hw]
      rw [hD]
      rfl

/-- Claim C10: `download_data` performs no directory creation — the set of
directories after any run equals the set before; if the parent directory
of `output_path` does not exist when `download_data` is called directly,
the run ends in an error with the file system completely unchanged (the
`open` fails, no file is written); and the CLI entry point `main` is
exactly `mkdir(parents=True, exist_ok=True)` on the output path's parent
followed by `download_data`, so the parent directory exists before
`download_data` is invoked. -/
theorem c10_no_mkdir_in_download_data :
    (∀ (X : List (List Rat)) (y : List Nat) (a : Nat) (fs : FS)
        (ioFuel : Option Nat) (p : FsPath) (t : Rat) (s : Nat),
      (download_dataOn X y a fs ioFuel p t s).2.dirs = fs.dirs) ∧
    (∀ (X : List (List Rat)) (y : List Nat) (a : Nat) (fs : FS)
        (ioFuel : Option Nat) (p : FsPath) (t : Rat) (s : Nat),
      p.parent ∉ fs.dirs →
      ∃ e, download_dataOn X y a fs ioFuel p t s = (.error e, fs)) ∧
    (∀ (a : Nat) (fs : FS) (ioFuel : Option Nat) (args : Args),
      mainRun a fs ioFuel args
        = download_data a (mkdirParents fs args.data.parent) ioFuel
            args.data args.test_size args.random_state ∧
      args.data.parent ∈ (mkdirParents fs args.data.parent).dirs) := by
  refine ⟨download_dataOn_dirs, ?_, ?_⟩
  · intro X y a fs ioFuel p t s hdir
    cases htts : train_test_split X y t (check_random_state a s) with
    | error e =>
      refine ⟨e, ?_⟩
      rw [download_dataOn, htts]
    | ok r =>
      have hw : writeJson fs ioFuel p (jsonOf r) = (.error .ioFailure, fs) := by
        rw [writeJson, if_neg hdir]
      refine ⟨.ioFailure, ?_⟩
      simp only [download_dataOn, htts, hw]
  · intro a fs ioFuel args
    refine ⟨rfl, ?_⟩
    rw [mkdirParents]
    by_cases hmem : args.data.parent ∈ fs.dirs
    · rw [if_pos hmem]
      exact hmem
    · rw [if_neg hmem]
      exact List.mem_cons_self _ _

theorem c10_no_mkdir_witness :
    ((⟨"missing", "f"⟩ : FsPath).parent ∉ (⟨["elsewhere"], []⟩ : FS).dirs) ∧
    ∃ e, download_dataOn [[mkRat 1 1], [mkRat 2 1]] [0, 1] 0
        (⟨["elsewhere"], []⟩ : FS) none ⟨"missing", "f"⟩ (mkRat 1 2) 3
      = (.error e, (⟨["elsewhere"], []⟩ : FS)) :=
  ⟨by decide,
   c10_no_mkdir_in_download_data.2.1 [[mkRat 1 1], [mkRat 2 1]] [0, 1] 0
     ⟨["elsewhere"], []⟩ none ⟨"missing", "f"⟩ (mkRat 1 2) 3 (by decide)⟩
